import Mathlib

/-!
Verification of the snake402 multiplayer snake game core
(server `src/server/src/index.ts` with its `FoodManager`, client
`Snake.ts` and `GameScene`).

Shallow embedding conventions:
* JavaScript floating-point coordinates are modelled as exact rationals.
* `Math.random()` draws (spawn angle, spawn radius, food category roll,
  fresh id strings) are modelled by explicit oracle parameters: an
  `ℕ → SpawnDraw` stream plus a fresh-id counter `nextId` that stands for
  the collision-free ids `food_${Date.now()}_${Math.random()}`.
* `Math.cos θ / Math.sin θ` of a heading are passed as explicit
  parameters `c s : ℚ`; every theorem below holds for all values of
  these parameters, hence in particular for the actual cosine and sine.
* The source compares `Math.sqrt (dx*dx + dy*dy) ≤ bound` with
  `bound ≥ 0`; the embedding stores the equivalent squared comparison
  `dx^2 + dy^2 ≤ bound^2` (lemma `sqrt_cast_le_iff` proves the
  equivalence, and the food-claim theorem is stated with `Real.sqrt`).
-/

namespace Snake402

/-! ### Shared constants (src/server/src/index.ts lines 11-20,
    src/unnamed/part_000) -/

def WORLD_WIDTH : ℚ := 18000
def WORLD_HEIGHT : ℚ := 18000
def GRID_SIZE : ℚ := 20
def ARENA_CENTER_X : ℚ := WORLD_WIDTH / 2
def ARENA_CENTER_Y : ℚ := WORLD_HEIGHT / 2
def ARENA_RADIUS : ℚ := min WORLD_WIDTH WORLD_HEIGHT / 2 - 500
def BASE_SPEED : ℚ := 200
def BOOST_MULTIPLIER : ℚ := 3 / 2
def SNAKE_INITIAL_LENGTH : ℕ := 3
def MAX_FOOD : ℕ := 2500

/-- FoodManager collision constants (FoodManager lines 610-611). -/
def FOOD_RADIUS : ℚ := 15

def SNAKE_EAT_RADIUS : ℚ := 25

/-- Client constants (src/unnamed/part_000). -/
def ROTATION_SPEED : ℚ := 1 / 10

def MIN_SNAKE_LENGTH : ℕ := 2

/-- Squared Euclidean distance.  The source always computes
    `Math.sqrt` of this quantity and compares it against a nonnegative
    bound; the embedding compares the squares instead. -/
def distSq (x1 y1 x2 y2 : ℚ) : ℚ := (x1 - x2) ^ 2 + (y1 - y2) ^ 2

theorem distSq_nonneg (x1 y1 x2 y2 : ℚ) : 0 ≤ distSq x1 y1 x2 y2 := by
  unfold distSq; positivity

/-- Bridge between the squared comparison used by the embedding and the
    `Math.sqrt` comparison written in the source. -/
theorem sqrt_cast_le_iff (d c : ℚ) (hd : 0 ≤ d) (hc : 0 ≤ c) :
    Real.sqrt (d : ℝ) ≤ (c : ℝ) ↔ d ≤ c ^ 2 := by
  have hdR : (0 : ℝ) ≤ (d : ℝ) := by exact_mod_cast hd
  have hcR : (0 : ℝ) ≤ (c : ℝ) := by exact_mod_cast hc
  constructor
  · intro h
    have h2 : (d : ℝ) ≤ (c : ℝ) ^ 2 := by
      have := Real.sq_sqrt hdR
      nlinarith [Real.sqrt_nonneg (d : ℝ)]
    exact_mod_cast h2
  · intro h
    have h2 : (d : ℝ) ≤ (c : ℝ) ^ 2 := by exact_mod_cast h
    have h3 : Real.sqrt (d : ℝ) ≤ Real.sqrt ((c : ℝ) ^ 2) := Real.sqrt_le_sqrt h2
    rwa [Real.sqrt_sq hcR] at h3

/-! ### FoodManager (src/server/src/index.ts lines 574-729) -/

inductive FoodType where
  | small
  | large
deriving DecidableEq, Repr

/-- A food pellet (interface `FoodItem`).  Ids are modelled as naturals
    drawn from the fresh-id counter. -/
structure FoodItem where
  id : ℕ
  x : ℚ
  y : ℚ
  type : FoodType
  color : ℕ
  size : ℚ
  score : ℕ
  growthAmount : ℕ
deriving DecidableEq, Repr

/-- One bundle of `Math.random()` draws consumed by `spawnFood`:
    `angleCos/angleSin` stand for `cos/sin` of the random angle,
    `radiusFrac` for `Math.sqrt(Math.random())`, and `largeRoll` for
    `Math.random() < 0.1`. -/
structure SpawnDraw where
  angleCos : ℚ
  angleSin : ℚ
  radiusFrac : ℚ
  largeRoll : Bool

/-- `Math.round(x / gridSize) * gridSize` — Mathlib`round` rounds
    halves up, exactly like `Math.round`. -/
def roundToGrid (g x : ℚ) : ℚ := ((round (x / g) : ℤ) : ℚ) * g

/-- The `FoodManager` state: `food` models the insertion-ordered
    `Map<string, FoodItem>`, `nextId` the fresh-id generator, and
    `draws` the randomness oracle consumed at each spawn. -/
structure FoodManager where
  food : List FoodItem
  maxFood : ℕ
  arenaCenterX : ℚ
  arenaCenterY : ℚ
  arenaRadius : ℚ
  gridSize : ℚ
  nextId : ℕ
  draws : ℕ → SpawnDraw

/-- `spawnFood` (lines 634-660): picks a random in-arena position,
    rolls the category, inserts the pellet with a fresh id. -/
def FoodManager.spawnFood (m : FoodManager) : FoodItem × FoodManager :=
  let d := m.draws m.nextId
  let radius := d.radiusFrac * (m.arenaRadius - 50)
  let x := m.arenaCenterX + d.angleCos * radius
  let y := m.arenaCenterY + d.angleSin * radius
  let isLarge := d.largeRoll
  let f : FoodItem :=
    { id := m.nextId
      x := roundToGrid m.gridSize x
      y := roundToGrid m.gridSize y
      type := if isLarge then .large else .small
      color := if isLarge then 0x9C27B0 else 0xFF5722
      size := if isLarge then 40 else 20
      score := if isLarge then 25 else 10
      growthAmount := if isLarge then 2 else 1 }
  (f, { m with food := m.food ++ [f], nextId := m.nextId + 1 })

/-- `this.food.get(foodId)`. -/
def FoodManager.getFood (m : FoodManager) (foodId : ℕ) : Option FoodItem :=
  m.food.find? (fun f => f.id == foodId)

/-- `this.food.size`. -/
def FoodManager.getFoodCount (m : FoodManager) : ℕ := m.food.length

/-- Well-formedness carried by every reachable manager state: every
    live id was produced by the counter, hence is below `nextId`,
    so freshly spawned ids never collide with live or consumed ids. -/
def FoodManager.WF (m : FoodManager) : Prop :=
  ∀ f ∈ m.food, f.id < m.nextId

instance (m : FoodManager) : Decidable m.WF := by
  unfold FoodManager.WF; infer_instance

/-- The `Player` interface consumed by the FoodManager
    (lines 587-594). -/
structure PlayerV where
  id : ℕ
  x : ℚ
  y : ℚ
  segments : List (ℚ × ℚ)
  length : ℕ
  score : ℕ
deriving DecidableEq, Repr

structure FoodEatenResult where
  success : Bool
  food : Option FoodItem
  newFood : Option FoodItem
deriving DecidableEq, Repr

/-- The squared collision bound `(FOOD_RADIUS + SNAKE_EAT_RADIUS)^2`. -/
def eatDistSq : ℚ := (FOOD_RADIUS + SNAKE_EAT_RADIUS) ^ 2

/-- `validateEatAttempt` (lines 662-701): look the pellet up, reject on
    a missing id or an empty segment chain, accept exactly when the
    head-to-pellet distance is within the bound (squared comparison in
    the embedding, see `sqrt_cast_le_iff`), and on acceptance delete
    the pellet and spawn one replacement. -/
def FoodManager.validateEatAttempt (m : FoodManager) (player : PlayerV)
    (foodId : ℕ) : FoodEatenResult × FoodManager :=
  match m.getFood foodId with
  | none => (⟨false, none, none⟩, m)
  | some food =>
    match player.segments with
    | [] => (⟨false, none, none⟩, m)
    | head :: _ =>
      if distSq head.1 head.2 food.x food.y ≤ eatDistSq then
        let m1 : FoodManager :=
          { m with food := m.food.filter (fun f => f.id != foodId) }
        let s := m1.spawnFood
        (⟨true, some food, some s.1⟩, s.2)
      else (⟨false, none, none⟩, m)

/-- The `while (this.food.size < this.maxFood)` loop of
    `maintainFoodCount` (lines 715-724), run on explicit fuel; each
    spawn appends exactly one pellet, so fuel `maxFood - size` makes
    the recursion terminate exactly when the guard turns false. -/
def FoodManager.maintainLoop : ℕ → FoodManager → List FoodItem × FoodManager
  | 0, m => ([], m)
  | n + 1, m =>
    if m.food.length < m.maxFood then
      let s := m.spawnFood
      let r := FoodManager.maintainLoop n s.2
      (s.1 :: r.1, r.2)
    else ([], m)

/-- `maintainFoodCount` (lines 715-724). -/
def FoodManager.maintainFoodCount (m : FoodManager) : List FoodItem × FoodManager :=
  FoodManager.maintainLoop (m.maxFood - m.food.length) m

/-! ### FoodManager lemmas -/

theorem getFood_id_eq_and_lt (m : FoodManager) (foodId : ℕ) (food : FoodItem)
    (hwf : m.WF) (h : m.getFood foodId = some food) :
    food.id = foodId ∧ foodId < m.nextId := by
  have hmem : food ∈ m.food := List.mem_of_find?_eq_some h
  have hpred := List.find?_some h
  have hid : food.id = foodId := by simpa using hpred
  exact ⟨hid, hid ▸ hwf food hmem⟩

theorem find?_filter_append_none (l : List FoodItem) (i : ℕ) (nf : FoodItem)
    (h : nf.id ≠ i) :
    (l.filter (fun f => f.id != i) ++ [nf]).find? (fun f => f.id == i) = none := by
  rw [List.find?_eq_none]
  intro x hx
  rcases List.mem_append.mp hx with hx | hx
  · have hp := (List.mem_filter.mp hx).2
    simp only [bne_iff_ne, ne_eq] at hp
    simp [hp]
  · have : x = nf := by simpa using hx
    subst this
    simp [h]

/-- C1: `validateEatAttempt` rejects an absent pellet id; for a present
    pellet (and a claimant with a head segment) it accepts exactly when
    the Euclidean head-to-pellet distance is at most
    `FOOD_RADIUS + SNAKE_EAT_RADIUS`, and on acceptance it removes that
    pellet from the pool, spawns exactly one replacement, and returns
    both the eaten pellet and the replacement. -/
theorem validateEatAttempt_spec (m : FoodManager) (player : PlayerV) (foodId : ℕ)
    (hwf : m.WF) :
    (m.getFood foodId = none →
      (m.validateEatAttempt player foodId).1.success = false) ∧
    (∀ food head rest, m.getFood foodId = some food →
      player.segments = head :: rest →
      ((m.validateEatAttempt player foodId).1.success = true ↔
        Real.sqrt ((distSq head.1 head.2 food.x food.y : ℚ) : ℝ) ≤
          (FOOD_RADIUS : ℝ) + (SNAKE_EAT_RADIUS : ℝ)) ∧
      ((m.validateEatAttempt player foodId).1.success = true →
        (m.validateEatAttempt player foodId).1.food = some food ∧
        ∃ nf, (m.validateEatAttempt player foodId).1.newFood = some nf ∧
          (m.validateEatAttempt player foodId).2.food =
            m.food.filter (fun f => f.id != foodId) ++ [nf] ∧
          (m.validateEatAttempt player foodId).2.getFood foodId = none)) := by
  constructor
  · intro hnone
    simp [FoodManager.validateEatAttempt, hnone]
  · intro food head rest hfood hseg
    have hcast :
        Real.sqrt ((distSq head.1 head.2 food.x food.y : ℚ) : ℝ) ≤
            (FOOD_RADIUS : ℝ) + (SNAKE_EAT_RADIUS : ℝ) ↔
          distSq head.1 head.2 food.x food.y ≤ eatDistSq := by
      have h := sqrt_cast_le_iff (distSq head.1 head.2 food.x food.y)
        (FOOD_RADIUS + SNAKE_EAT_RADIUS)
        (distSq_nonneg _ _ _ _) (by norm_num [FOOD_RADIUS, SNAKE_EAT_RADIUS])
      rw [eatDistSq]
      rw [← h]
      push_cast
      tauto
    simp only [FoodManager.validateEatAttempt, hfood, hseg]
    split_ifs with hd
    · refine ⟨by simpa [hcast] using hd, ?_⟩
      intro _
      refine ⟨rfl, _, rfl, rfl, ?_⟩
      have hid := getFood_id_eq_and_lt m foodId food hwf hfood
      exact find?_filter_append_none m.food foodId _ (by simp; omega)
    · constructor
      · simp only [false_iff]
        rw [hcast]
        exact hd
      · intro h; cases h

/-- Concrete witness data: a manager holding one pellet at the origin
    and a claimant whose head sits on that pellet. -/
def drawsW : ℕ → SpawnDraw := fun _ => ⟨1, 0, 0, false⟩

def pelletW : FoodItem :=
  { id := 0, x := 0, y := 0, type := .small, color := 0xFF5722, size := 20
    score := 10, growthAmount := 1 }

def mgrW : FoodManager :=
  { food := [pelletW], maxFood := 2500, arenaCenterX := 9000
    arenaCenterY := 9000, arenaRadius := 8500, gridSize := 20
    nextId := 1, draws := drawsW }

def playerW : PlayerV :=
  { id := 7, x := 0, y := 0, segments := [(0, 0), (-20, 0), (-40, 0)]
    length := 3, score := 0 }

theorem validateEatAttempt_spec_witness :
    mgrW.WF ∧
    ((mgrW.getFood 0 = none →
      (mgrW.validateEatAttempt playerW 0).1.success = false) ∧
    (∀ food head rest, mgrW.getFood 0 = some food →
      playerW.segments = head :: rest →
      ((mgrW.validateEatAttempt playerW 0).1.success = true ↔
        Real.sqrt ((distSq head.1 head.2 food.x food.y : ℚ) : ℝ) ≤
          (FOOD_RADIUS : ℝ) + (SNAKE_EAT_RADIUS : ℝ)) ∧
      ((mgrW.validateEatAttempt playerW 0).1.success = true →
        (mgrW.validateEatAttempt playerW 0).1.food = some food ∧
        ∃ nf, (mgrW.validateEatAttempt playerW 0).1.newFood = some nf ∧
          (mgrW.validateEatAttempt playerW 0).2.food =
            mgrW.food.filter (fun f => f.id != 0) ++ [nf] ∧
          (mgrW.validateEatAttempt playerW 0).2.getFood 0 = none))) :=
  ⟨by decide, validateEatAttempt_spec mgrW playerW 0 (by decide)⟩

/-- C2: once a call to `validateEatAttempt` has accepted a pellet id,
    any subsequent call with the same id is rejected: the pellet was
    deleted and the replacement carries a fresh id. -/
theorem validateEatAttempt_consumed_rejects (m : FoodManager) (p : PlayerV)
    (foodId : ℕ) (hwf : m.WF)
    (h : (m.validateEatAttempt p foodId).1.success = true) :
    ∀ p2 : PlayerV,
      (((m.validateEatAttempt p foodId).2).validateEatAttempt p2 foodId).1.success
        = false := by
  intro p2
  rcases hm : m.getFood foodId with _ | food
  · simp [FoodManager.validateEatAttempt, hm] at h
  rcases hs : p.segments with _ | ⟨head, rest⟩
  · simp [FoodManager.validateEatAttempt, hm, hs] at h
  by_cases hd : distSq head.1 head.2 food.x food.y ≤ eatDistSq
  · have hid := getFood_id_eq_and_lt m foodId food hwf hm
    have hafter :
        ((m.validateEatAttempt p foodId).2).getFood foodId = none := by
      simp only [FoodManager.validateEatAttempt, hm, hs, if_pos hd]
      exact find?_filter_append_none m.food foodId _ (by simp; omega)
    set m2 := (m.validateEatAttempt p foodId).2 with hm2
    simp [FoodManager.validateEatAttempt, hafter]
  · simp [FoodManager.validateEatAttempt, hm, hs, if_neg hd] at h

theorem validateEatAttempt_consumed_rejects_witness :
    mgrW.WF ∧ (mgrW.validateEatAttempt playerW 0).1.success = true ∧
    ∀ p2 : PlayerV,
      (((mgrW.validateEatAttempt playerW 0).2).validateEatAttempt p2 0).1.success
        = false :=
  ⟨by decide,
   by norm_num [FoodManager.validateEatAttempt, FoodManager.getFood, mgrW,
     pelletW, playerW, List.find?, eatDistSq, distSq, FOOD_RADIUS,
     SNAKE_EAT_RADIUS],
   validateEatAttempt_consumed_rejects mgrW playerW 0 (by decide)
     (by norm_num [FoodManager.validateEatAttempt, FoodManager.getFood, mgrW,
       pelletW, playerW, List.find?, eatDistSq, distSq, FOOD_RADIUS,
       SNAKE_EAT_RADIUS])⟩

theorem maintainLoop_spec :
    ∀ (n : ℕ) (m : FoodManager), m.food.length + n = m.maxFood →
      (FoodManager.maintainLoop n m).2.food =
          m.food ++ (FoodManager.maintainLoop n m).1 ∧
        (FoodManager.maintainLoop n m).1.length = n := by
  intro n
  induction n with
  | zero => intro m hm; simp [FoodManager.maintainLoop]
  | succ n ih =>
    intro m hm
    have hlt : m.food.length < m.maxFood := by omega
    have h2 : (m.spawnFood).2.food = m.food ++ [(m.spawnFood).1] := rfl
    have h3 : (m.spawnFood).2.maxFood = m.maxFood := rfl
    have hrec := ih (m.spawnFood).2 (by rw [h2, h3]; simp; omega)
    simp only [FoodManager.maintainLoop, if_pos hlt]
    constructor
    · rw [hrec.1, h2]
      simp
    · simp [hrec.2]

/-- C3: when the pool holds at most `maxFood` pellets,
    `maintainFoodCount` tops the pool up to exactly `maxFood`, spawning
    the returned pellets one at a time and returning exactly the list
    of newly spawned pellets (the new pool is the old pool plus that
    list). -/
theorem maintainFoodCount_fills_to_max (m : FoodManager)
    (h : m.food.length ≤ m.maxFood) :
    (m.maintainFoodCount).2.getFoodCount = m.maxFood ∧
    (m.maintainFoodCount).2.food = m.food ++ (m.maintainFoodCount).1 ∧
    (m.maintainFoodCount).1.length = m.maxFood - m.food.length := by
  have hspec := maintainLoop_spec (m.maxFood - m.food.length) m (by omega)
  refine ⟨?_, hspec.1, hspec.2⟩
  unfold FoodManager.getFoodCount FoodManager.maintainFoodCount
  rw [hspec.1, List.length_append, hspec.2]
  omega

def mgrW3 : FoodManager :=
  { food := [pelletW], maxFood := 3, arenaCenterX := 9000
    arenaCenterY := 9000, arenaRadius := 8500, gridSize := 20
    nextId := 1, draws := drawsW }

theorem maintainFoodCount_fills_to_max_witness :
    mgrW3.food.length ≤ mgrW3.maxFood ∧
    ((mgrW3.maintainFoodCount).2.getFoodCount = mgrW3.maxFood ∧
     (mgrW3.maintainFoodCount).2.food =
        mgrW3.food ++ (mgrW3.maintainFoodCount).1 ∧
     (mgrW3.maintainFoodCount).1.length = mgrW3.maxFood - mgrW3.food.length) :=
  ⟨by decide, maintainFoodCount_fills_to_max mgrW3 (by decide)⟩

/-! ### Server avatar state (interface `Player`, lines 98-112; the
    websocket handle and the input timestamp are dropped, they never
    influence the simulated state) -/

structure Player where
  id : ℕ
  x : ℚ
  y : ℚ
  angle : ℚ
  targetAngle : ℚ
  speed : ℚ
  isBoosting : Bool
  segments : List (ℚ × ℚ)
  length : ℕ
  score : ℕ
deriving DecidableEq, Repr

/-- Line 203: `BASE_SPEED * BOOST_MULTIPLIER` when boosting. -/
def speedOf (isBoosting : Bool) : ℚ :=
  if isBoosting then BASE_SPEED * BOOST_MULTIPLIER else BASE_SPEED

/-- The integrated candidate position of lines 206-208:
    `pos + (cos angle, sin angle) * speed * deltaTime / 1000`, with the
    trig pair of the heading passed as the oracle `(c, s)`. -/
def integratedPos (p : Player) (c s dt : ℚ) : ℚ × ℚ :=
  (p.x + c * (speedOf p.isBoosting * dt / 1000),
   p.y + s * (speedOf p.isBoosting * dt / 1000))

/-- The containment test of lines 210-215; the source compares
    `Math.sqrt` of the squared distance against `ARENA_RADIUS`
    (equivalent squared form, see `sqrt_cast_le_iff`). -/
def inArena (x y : ℚ) : Prop :=
  distSq x y ARENA_CENTER_X ARENA_CENTER_Y ≤ ARENA_RADIUS ^ 2

instance (x y : ℚ) : Decidable (inArena x y) := by
  unfold inArena; infer_instance

/-- `updatePlayerSegments` (lines 224-239): unshift the current head
    position, then pop from the tail `while segments.length > length`
    — equivalently keep the first `length` entries. -/
def updatePlayerSegments (p : Player) : Player :=
  { p with segments := ((p.x, p.y) :: p.segments).take p.length }

/-- `updatePlayer` (lines 198-222): snap the heading to the target,
    recompute the boost speed, integrate the position, and commit it
    (together with a segment update) only when the new position stays
    inside the arena; otherwise only heading and speed change. -/
def updatePlayer (p : Player) (c s dt : ℚ) : Player :=
  if inArena (integratedPos p c s dt).1 (integratedPos p c s dt).2 then
    updatePlayerSegments
      { p with angle := p.targetAngle, speed := speedOf p.isBoosting,
               x := (integratedPos p c s dt).1,
               y := (integratedPos p c s dt).2 }
  else { p with angle := p.targetAngle, speed := speedOf p.isBoosting }

/-- `updatePlayerInput` (lines 170-178). -/
def updatePlayerInput (p : Player) (angle throttle : ℚ) : Player :=
  { p with targetAngle := angle, isBoosting := decide (throttle > 0) }

/-- The per-player effect of one `GameWorld.tick` (lines 180-196):
    `updatePlayer`, the (no-op) collision check, then the
    post-collision `updatePlayerSegments` resync. -/
def tickPlayer (p : Player) (c s dt : ℚ) : Player :=
  updatePlayerSegments (updatePlayer p c s dt)

/-- The effect of a validated eat on the eating player
    (`handleEatAttempt`, lines 348-356): apply score and growth, then
    immediately resync the segments once. -/
def eatApply (p : Player) (f : FoodItem) : Player :=
  updatePlayerSegments
    { p with score := p.score + f.score, length := p.length + f.growthAmount }

theorem updatePlayerSegments_x (p : Player) : (updatePlayerSegments p).x = p.x := rfl

theorem updatePlayerSegments_y (p : Player) : (updatePlayerSegments p).y = p.y := rfl

theorem updatePlayer_angle (p : Player) (c s dt : ℚ) :
    (updatePlayer p c s dt).angle = p.targetAngle := by
  unfold updatePlayer
  split_ifs <;> rfl

/-! ### Per-player event system: the asynchronous interleaving of input
    messages, validated eats and server ticks acting on one avatar -/

inductive PEvent where
  | input (angle throttle : ℚ)
  | tickMove (c s dt : ℚ)
  | eatFood (f : FoodItem)

def stepPlayer (p : Player) : PEvent → Player
  | .input a th => updatePlayerInput p a th
  | .tickMove c s dt => tickPlayer p c s dt
  | .eatFood f => eatApply p f

/-- Number of head positions unshifted onto the chain by one event:
    a tick pushes twice when the move was committed (once inside
    `updatePlayer`, once in the resync) and once when blocked; a
    validated eat pushes once; an input message never touches the
    chain. -/
def eventPushes (p : Player) : PEvent → ℕ
  | .input _ _ => 0
  | .tickMove c s dt =>
      (if inArena (integratedPos p c s dt).1 (integratedPos p c s dt).2
        then 1 else 0) + 1
  | .eatFood _ => 1

def runPlayer : Player → List PEvent → Player
  | p, [] => p
  | p, e :: es => runPlayer (stepPlayer p e) es

/-- Total head positions pushed, starting from a seed count `k`
    (the spawn seeds the chain with `SNAKE_INITIAL_LENGTH` head
    positions). -/
def runPushes : Player → ℕ → List PEvent → ℕ
  | _, k, [] => k
  | p, k, e :: es => runPushes (stepPlayer p e) (k + eventPushes p e) es

/-- An event is a small eat (growth 1) or not an eat at all. -/
def smallEat : PEvent → Prop
  | .eatFood f => f.growthAmount = 1
  | _ => True

/-! ### Session registry: `addPlayer` (lines 131-164).  The four
    `Math.random()` draws are passed as oracles: `(c1, s1)` the trig
    pair of the placement angle, `rad` the radius fraction in `[0, 1)`,
    `ang2` the random initial heading with trig pair `(c2, s2)`. -/

def addPlayer (playerId : ℕ) (c1 s1 rad ang2 c2 s2 : ℚ) : Player :=
  { id := playerId
    x := ARENA_CENTER_X + c1 * (rad * (ARENA_RADIUS * (3 / 10)))
    y := ARENA_CENTER_Y + s1 * (rad * (ARENA_RADIUS * (3 / 10)))
    angle := ang2
    targetAngle := 0
    speed := BASE_SPEED
    isBoosting := false
    segments := (List.range SNAKE_INITIAL_LENGTH).map (fun i =>
      (ARENA_CENTER_X + c1 * (rad * (ARENA_RADIUS * (3 / 10)))
         - (i : ℚ) * GRID_SIZE * c2,
       ARENA_CENTER_Y + s1 * (rad * (ARENA_RADIUS * (3 / 10)))
         - (i : ℚ) * GRID_SIZE * s2))
    length := SNAKE_INITIAL_LENGTH
    score := 0 }

/-! ### GameWorld eat handling (lines 328-377) -/

/-- The projection handed to the FoodManager (lines 336-343). -/
def playerToPV (p : Player) : PlayerV :=
  { id := p.id, x := p.x, y := p.y, segments := p.segments,
    length := p.length, score := p.score }

structure GameWorld where
  players : List Player
  foodManager : FoodManager

/-- `handleEatAttempt` (lines 328-377): look the claimant up, validate
    through the FoodManager, and on success apply score and growth and
    resync the segment chain of that one player. -/
def GameWorld.handleEatAttempt (w : GameWorld) (playerId foodId : ℕ) : GameWorld :=
  match w.players.find? (fun q => q.id == playerId) with
  | none => w
  | some player =>
    let r := w.foodManager.validateEatAttempt (playerToPV player) foodId
    if r.1.success then
      match r.1.food with
      | some f =>
        { players := w.players.map (fun q =>
            if q.id == playerId then eatApply player f else q)
          foodManager := r.2 }
      | none => { w with foodManager := r.2 }
    else { w with foodManager := r.2 }

/-- Decidable statement that the eat claim is rejected: the claimant is
    unknown, or validation fails (absent pellet id, empty segment
    chain, or the claimant is too far away). -/
def EatRejected (w : GameWorld) (playerId foodId : ℕ) : Bool :=
  match w.players.find? (fun q => q.id == playerId) with
  | none => true
  | some player =>
    !(w.foodManager.validateEatAttempt (playerToPV player) foodId).1.success

/-! ### Client rotation smoothing (`Snake.updateRotation`,
    src/client/src/Snake.ts lines 379-393) -/

/-- Closed form of the pair of while loops
    `while (a > pi) a -= 2*pi; while (a < -pi) a += 2*pi`:
    at most one loop runs, and it subtracts or adds `2*pi` exactly
    `ceil(excess / (2*pi))` times.  Stated over any ordered field with
    a floor so the same definition also covers exact real angles. -/
def wrapWhile {α : Type} [LinearOrderedField α] [FloorRing α] (pi a : α) : α :=
  if pi < a then a - 2 * pi * ((⌈(a - pi) / (2 * pi)⌉ : ℤ) : α)
  else if a < -pi then a + 2 * pi * ((⌈(-pi - a) / (2 * pi)⌉ : ℤ) : α)
  else a

/-- `updateRotation`: wrap the difference to the target into
    `[-pi, pi]`, advance by the rotation-speed fraction of it, and wrap
    the result again. -/
def updateRotation {α : Type} [LinearOrderedField α] [FloorRing α]
    (pi rotSpeed angle targetAngle : α) : α :=
  wrapWhile pi (angle + wrapWhile pi (targetAngle - angle) * rotSpeed)

theorem wrapWhile_bounds {α : Type} [LinearOrderedField α] [FloorRing α]
    (pi a : α) (hpi : 0 < pi) :
    -pi ≤ wrapWhile pi a ∧ wrapWhile pi a ≤ pi := by
  have h2pi : (0 : α) < 2 * pi := by linarith
  unfold wrapWhile
  split_ifs with h1 h2
  · have hk1 : (a - pi) / (2 * pi) ≤ ((⌈(a - pi) / (2 * pi)⌉ : ℤ) : α) :=
      Int.le_ceil _
    have hk2 : ((⌈(a - pi) / (2 * pi)⌉ : ℤ) : α) < (a - pi) / (2 * pi) + 1 :=
      Int.ceil_lt_add_one _
    have e1 : a - pi ≤ 2 * pi * ((⌈(a - pi) / (2 * pi)⌉ : ℤ) : α) := by
      rw [div_le_iff₀ h2pi] at hk1
      linarith
    have e2 : 2 * pi * ((⌈(a - pi) / (2 * pi)⌉ : ℤ) : α) < a + pi := by
      have h3 : ((⌈(a - pi) / (2 * pi)⌉ : ℤ) : α) - 1 < (a - pi) / (2 * pi) := by
        linarith
      rw [lt_div_iff₀ h2pi] at h3
      linarith
    constructor <;> linarith
  · have hk1 : (-pi - a) / (2 * pi) ≤ ((⌈(-pi - a) / (2 * pi)⌉ : ℤ) : α) :=
      Int.le_ceil _
    have hk2 : ((⌈(-pi - a) / (2 * pi)⌉ : ℤ) : α) < (-pi - a) / (2 * pi) + 1 :=
      Int.ceil_lt_add_one _
    have e1 : -pi - a ≤ 2 * pi * ((⌈(-pi - a) / (2 * pi)⌉ : ℤ) : α) := by
      rw [div_le_iff₀ h2pi] at hk1
      linarith
    have e2 : 2 * pi * ((⌈(-pi - a) / (2 * pi)⌉ : ℤ) : α) < -pi - a + 2 * pi := by
      have h3 : ((⌈(-pi - a) / (2 * pi)⌉ : ℤ) : α) - 1 < (-pi - a) / (2 * pi) := by
        linarith
      rw [lt_div_iff₀ h2pi] at h3
      linarith
    constructor <;> linarith
  · exact ⟨le_of_not_lt h2, le_of_not_lt h1⟩

/-! ### Claim theorems for movement and heading -/

theorem lt_sqrt_cast_iff (d c : ℚ) (hd : 0 ≤ d) (hc : 0 ≤ c) :
    (c : ℝ) < Real.sqrt (d : ℝ) ↔ c ^ 2 < d := by
  rw [← not_le, ← not_le, sqrt_cast_le_iff d c hd hc]

/-- C4: a committed position inside the arena stays inside the arena
    after the per-player effect of a tick (integration commits the new
    position only when it passes the containment test; the
    post-collision resync never moves the position). -/
theorem tickPlayer_preserves_arena (p : Player) (c s dt : ℚ)
    (h : Real.sqrt ((distSq p.x p.y ARENA_CENTER_X ARENA_CENTER_Y : ℚ) : ℝ)
        ≤ (ARENA_RADIUS : ℝ)) :
    Real.sqrt ((distSq (tickPlayer p c s dt).x (tickPlayer p c s dt).y
        ARENA_CENTER_X ARENA_CENTER_Y : ℚ) : ℝ) ≤ (ARENA_RADIUS : ℝ) := by
  have hc : (0 : ℚ) ≤ ARENA_RADIUS := by
    norm_num [ARENA_RADIUS, WORLD_WIDTH, WORLD_HEIGHT]
  rw [sqrt_cast_le_iff _ _ (distSq_nonneg _ _ _ _) hc] at h ⊢
  unfold tickPlayer updatePlayer
  split_ifs with hin
  · simpa [updatePlayerSegments] using hin
  · simpa [updatePlayerSegments] using h

def pW4 : Player :=
  { id := 1, x := 9000, y := 9000, angle := 0, targetAngle := 0, speed := 200
    isBoosting := false, segments := [(9000, 9000), (8980, 9000), (8960, 9000)]
    length := 3, score := 0 }

theorem tickPlayer_preserves_arena_witness :
    Real.sqrt ((distSq pW4.x pW4.y ARENA_CENTER_X ARENA_CENTER_Y : ℚ) : ℝ)
        ≤ (ARENA_RADIUS : ℝ) ∧
    Real.sqrt ((distSq (tickPlayer pW4 1 0 1000).x (tickPlayer pW4 1 0 1000).y
        ARENA_CENTER_X ARENA_CENTER_Y : ℚ) : ℝ) ≤ (ARENA_RADIUS : ℝ) := by
  have h0 : Real.sqrt ((distSq pW4.x pW4.y ARENA_CENTER_X ARENA_CENTER_Y : ℚ) : ℝ)
      ≤ (ARENA_RADIUS : ℝ) := by
    rw [sqrt_cast_le_iff _ _ (distSq_nonneg _ _ _ _)
      (by norm_num [ARENA_RADIUS, WORLD_WIDTH, WORLD_HEIGHT])]
    norm_num [distSq, pW4, ARENA_CENTER_X, ARENA_CENTER_Y, ARENA_RADIUS,
      WORLD_WIDTH, WORLD_HEIGHT]
  exact ⟨h0, tickPlayer_preserves_arena pW4 1 0 1000 h0⟩

/-- C5: when the integrated candidate position falls outside the arena
    radius, the avatar position is left completely unchanged by the
    movement step of that tick — no clamping, no sliding. -/
theorem updatePlayer_blocked_no_move (p : Player) (c s dt : ℚ)
    (h : (ARENA_RADIUS : ℝ) < Real.sqrt ((distSq (integratedPos p c s dt).1
        (integratedPos p c s dt).2 ARENA_CENTER_X ARENA_CENTER_Y : ℚ) : ℝ)) :
    (updatePlayer p c s dt).x = p.x ∧ (updatePlayer p c s dt).y = p.y := by
  have hc : (0 : ℚ) ≤ ARENA_RADIUS := by
    norm_num [ARENA_RADIUS, WORLD_WIDTH, WORLD_HEIGHT]
  rw [lt_sqrt_cast_iff _ _ (distSq_nonneg _ _ _ _) hc] at h
  have hout : ¬ inArena (integratedPos p c s dt).1 (integratedPos p c s dt).2 := by
    unfold inArena
    linarith
  unfold updatePlayer
  rw [if_neg hout]
  exact ⟨rfl, rfl⟩

def pW5 : Player :=
  { id := 1, x := 17500, y := 9000, angle := 0, targetAngle := 0, speed := 200
    isBoosting := false, segments := [(17500, 9000), (17480, 9000)]
    length := 3, score := 0 }

theorem updatePlayer_blocked_no_move_witness :
    (ARENA_RADIUS : ℝ) < Real.sqrt ((distSq (integratedPos pW5 1 0 1000).1
        (integratedPos pW5 1 0 1000).2 ARENA_CENTER_X ARENA_CENTER_Y : ℚ) : ℝ) ∧
    ((updatePlayer pW5 1 0 1000).x = pW5.x ∧
     (updatePlayer pW5 1 0 1000).y = pW5.y) := by
  have h0 : (ARENA_RADIUS : ℝ) < Real.sqrt ((distSq (integratedPos pW5 1 0 1000).1
      (integratedPos pW5 1 0 1000).2 ARENA_CENTER_X ARENA_CENTER_Y : ℚ) : ℝ) := by
    rw [lt_sqrt_cast_iff _ _ (distSq_nonneg _ _ _ _)
      (by norm_num [ARENA_RADIUS, WORLD_WIDTH, WORLD_HEIGHT])]
    norm_num [distSq, integratedPos, speedOf, pW5, BASE_SPEED, BOOST_MULTIPLIER,
      ARENA_CENTER_X, ARENA_CENTER_Y, ARENA_RADIUS, WORLD_WIDTH, WORLD_HEIGHT]
  exact ⟨h0, updatePlayer_blocked_no_move pW5 1 0 1000 h0⟩

/-- C6 counterexample: the server stores the raw client-supplied target
    heading with no normalization; after an input message carrying
    angle 4 and a tick, the committed heading is 4, which lies outside
    the half-open interval (-pi, pi]. -/
theorem server_heading_unnormalized_cex :
    ¬ (-Real.pi < (((updatePlayer (updatePlayerInput pW4 4 0) 1 0 0).angle : ℚ) : ℝ) ∧
       (((updatePlayer (updatePlayerInput pW4 4 0) 1 0 0).angle : ℚ) : ℝ) ≤ Real.pi) := by
  have hang : (updatePlayer (updatePlayerInput pW4 4 0) 1 0 0).angle = 4 := by
    rw [updatePlayer_angle]
    rfl
  rw [hang]
  push_cast
  rintro ⟨-, h2⟩
  have := Real.pi_lt_d2
  linarith

/-- C6 amended: the client rotation smoothing always lands the stored
    heading in the closed interval [-pi, pi] (the strict while-loop
    guards also admit the endpoint -pi), while the server performs no
    normalization at all and commits the raw input angle. -/
theorem heading_normalization_amended :
    (∀ angle targetAngle : ℝ,
      -Real.pi ≤ updateRotation Real.pi ((ROTATION_SPEED : ℚ) : ℝ) angle targetAngle ∧
      updateRotation Real.pi ((ROTATION_SPEED : ℚ) : ℝ) angle targetAngle ≤ Real.pi) ∧
    (∀ (p : Player) (a th c s dt : ℚ),
      (updatePlayer (updatePlayerInput p a th) c s dt).angle = a) := by
  constructor
  · intro angle targetAngle
    exact wrapWhile_bounds Real.pi _ Real.pi_pos
  · intro p a th c s dt
    rw [updatePlayer_angle]
    rfl

/-! ### Segment-chain accounting (C7) -/

theorem updatePlayerSegments_length (p : Player) :
    (updatePlayerSegments p).length = p.length := rfl

theorem updatePlayer_length (p : Player) (c s dt : ℚ) :
    (updatePlayer p c s dt).length = p.length := by
  unfold updatePlayer
  split_ifs <;> rfl

theorem seg_len_update (p : Player) :
    (updatePlayerSegments p).segments.length
      = min p.length (p.segments.length + 1) := by
  simp [updatePlayerSegments, List.length_take]

/-- One event preserves the chain-length bookkeeping
    `segments.length = min length pushed` as long as the event is not a
    large eat. -/
theorem segFormula_step (p : Player) (k : ℕ) (e : PEvent)
    (h : p.segments.length = min p.length k) (hl : 1 ≤ p.length)
    (hs : smallEat e) :
    (stepPlayer p e).segments.length
        = min (stepPlayer p e).length (k + eventPushes p e) ∧
      1 ≤ (stepPlayer p e).length := by
  cases e with
  | input a th =>
    refine ⟨?_, hl⟩
    simpa [stepPlayer, updatePlayerInput, eventPushes] using h
  | tickMove c s dt =>
    have l4 : (stepPlayer p (.tickMove c s dt)).length = p.length := by
      show (updatePlayerSegments (updatePlayer p c s dt)).length = _
      rw [updatePlayerSegments_length, updatePlayer_length]
    by_cases hin : inArena (integratedPos p c s dt).1 (integratedPos p c s dt).2
    · have l1 : (updatePlayer p c s dt).length = p.length := updatePlayer_length p c s dt
      have l2 : (updatePlayer p c s dt).segments.length
          = min p.length (p.segments.length + 1) := by
        simp [updatePlayer, if_pos hin, updatePlayerSegments, List.length_take]
      have l5 : (stepPlayer p (.tickMove c s dt)).segments.length
          = min p.length (min p.length (p.segments.length + 1) + 1) := by
        show (updatePlayerSegments (updatePlayer p c s dt)).segments.length = _
        rw [seg_len_update, l1, l2]
      have l6 : eventPushes p (.tickMove c s dt) = 2 := by
        simp [eventPushes, if_pos hin]
      rw [l5, l4, l6]
      exact ⟨by omega, hl⟩
    · have l1 : updatePlayer p c s dt
          = { p with angle := p.targetAngle, speed := speedOf p.isBoosting } := by
        unfold updatePlayer
        rw [if_neg hin]
      have l5 : (stepPlayer p (.tickMove c s dt)).segments.length
          = min p.length (p.segments.length + 1) := by
        show (updatePlayerSegments (updatePlayer p c s dt)).segments.length = _
        rw [l1, seg_len_update]
      have l6 : eventPushes p (.tickMove c s dt) = 1 := by
        simp [eventPushes, if_neg hin]
      rw [l5, l4, l6]
      exact ⟨by omega, hl⟩
  | eatFood f =>
    have hg : f.growthAmount = 1 := hs
    have l4 : (stepPlayer p (.eatFood f)).length = p.length + f.growthAmount := by
      show (updatePlayerSegments _).length = _
      rw [updatePlayerSegments_length]
    have l5 : (stepPlayer p (.eatFood f)).segments.length
        = min (p.length + f.growthAmount) (p.segments.length + 1) := by
      show (updatePlayerSegments _).segments.length = _
      rw [seg_len_update]
    have l6 : eventPushes p (.eatFood f) = 1 := rfl
    rw [l5, l4, l6, hg]
    exact ⟨by omega, by omega⟩

theorem segFormula_run (events : List PEvent) :
    ∀ (p : Player) (k : ℕ), p.segments.length = min p.length k → 1 ≤ p.length →
      (∀ e ∈ events, smallEat e) →
      (runPlayer p events).segments.length
          = min (runPlayer p events).length (runPushes p k events) ∧
        1 ≤ (runPlayer p events).length := by
  induction events with
  | nil => intro p k h hl _; exact ⟨h, hl⟩
  | cons e es ih =>
    intro p k h hl hsmall
    have hstep := segFormula_step p k e h hl (hsmall e (by simp))
    have := ih (stepPlayer p e) (k + eventPushes p e) hstep.1 hstep.2
      (fun e2 he2 => hsmall e2 (by simp [he2]))
    simpa [runPlayer, runPushes] using this

/-- The two-sided bound `1 ≤ segments.length ≤ length` is preserved by
    every event, large eats included. -/
theorem segBounds_step (p : Player) (e : PEvent)
    (h1 : 1 ≤ p.length) (h2 : 1 ≤ p.segments.length)
    (h3 : p.segments.length ≤ p.length) :
    1 ≤ (stepPlayer p e).length ∧ 1 ≤ (stepPlayer p e).segments.length ∧
      (stepPlayer p e).segments.length ≤ (stepPlayer p e).length := by
  cases e with
  | input a th => exact ⟨h1, h2, h3⟩
  | tickMove c s dt =>
    by_cases hin : inArena (integratedPos p c s dt).1 (integratedPos p c s dt).2
    · have l1 : (updatePlayer p c s dt).length = p.length := updatePlayer_length p c s dt
      have l2 : (updatePlayer p c s dt).segments.length
          = min p.length (p.segments.length + 1) := by
        simp [updatePlayer, if_pos hin, updatePlayerSegments, List.length_take]
      have l3 : (stepPlayer p (.tickMove c s dt)).segments.length
          = min p.length ((updatePlayer p c s dt).segments.length + 1) := by
        show (updatePlayerSegments (updatePlayer p c s dt)).segments.length = _
        rw [seg_len_update, l1]
      have l4 : (stepPlayer p (.tickMove c s dt)).length = p.length := by
        show (updatePlayerSegments (updatePlayer p c s dt)).length = _
        rw [updatePlayerSegments_length, l1]
      rw [l3, l2, l4]
      omega
    · have l1 : updatePlayer p c s dt
          = { p with angle := p.targetAngle, speed := speedOf p.isBoosting } := by
        unfold updatePlayer
        rw [if_neg hin]
      have l3 : (stepPlayer p (.tickMove c s dt)).segments.length
          = min p.length (p.segments.length + 1) := by
        show (updatePlayerSegments (updatePlayer p c s dt)).segments.length = _
        rw [l1, seg_len_update]
      have l4 : (stepPlayer p (.tickMove c s dt)).length = p.length := by
        show (updatePlayerSegments (updatePlayer p c s dt)).length = _
        rw [updatePlayerSegments_length, updatePlayer_length]
      rw [l3, l4]
      omega
  | eatFood f =>
    have l3 : (stepPlayer p (.eatFood f)).segments.length
        = min (p.length + f.growthAmount) (p.segments.length + 1) := by
      show (updatePlayerSegments _).segments.length = _
      rw [seg_len_update]
    have l4 : (stepPlayer p (.eatFood f)).length = p.length + f.growthAmount := by
      show (updatePlayerSegments _).length = _
      rw [updatePlayerSegments_length]
    rw [l3, l4]
    omega

theorem segBounds_run (events : List PEvent) :
    ∀ p : Player, 1 ≤ p.length → 1 ≤ p.segments.length →
      p.segments.length ≤ p.length →
      1 ≤ (runPlayer p events).length ∧
        1 ≤ (runPlayer p events).segments.length ∧
        (runPlayer p events).segments.length ≤ (runPlayer p events).length := by
  induction events with
  | nil => intro p h1 h2 h3; exact ⟨h1, h2, h3⟩
  | cons e es ih =>
    intro p h1 h2 h3
    have hstep := segBounds_step p e h1 h2 h3
    simpa [runPlayer] using ih (stepPlayer p e) hstep.1 hstep.2.1 hstep.2.2

/-- C7 amended: starting from a well-seeded chain, after any sequence
    of input, tick, and validated-eat events the bound
    `1 ≤ segments.length ≤ length` always holds; and the exact
    bookkeeping `segments.length = min length pushedHeadCount` holds
    whenever every eaten pellet is small (growth 1) — a large pellet
    can leave the chain lagging across tick boundaries. -/
theorem segments_invariant_amended (p : Player) (k : ℕ) (events : List PEvent)
    (h1 : p.segments.length = min p.length k) (h2 : 1 ≤ p.length)
    (h3 : 1 ≤ k) :
    (1 ≤ (runPlayer p events).segments.length ∧
      (runPlayer p events).segments.length ≤ (runPlayer p events).length) ∧
    ((∀ e ∈ events, smallEat e) →
      (runPlayer p events).segments.length
        = min (runPlayer p events).length (runPushes p k events)) := by
  constructor
  · have := segBounds_run events p h2 (by omega) (by omega)
    exact ⟨this.2.1, this.2.2⟩
  · intro hsmall
    exact (segFormula_run events p k h1 h2 hsmall).1

def smallPelletC7 : FoodItem :=
  { id := 4, x := 17400, y := 9000, type := .small, color := 0xFF5722
    size := 20, score := 10, growthAmount := 1 }

def pC7 : Player :=
  { id := 2, x := 17200, y := 9000, angle := 0, targetAngle := 0, speed := 200
    isBoosting := false
    segments := [(17200, 9000), (17180, 9000), (17160, 9000)]
    length := 3, score := 0 }

theorem segments_invariant_amended_witness :
    (pC7.segments.length = min pC7.length 3 ∧ 1 ≤ pC7.length ∧ 1 ≤ (3 : ℕ)) ∧
    ((1 ≤ (runPlayer pC7 [PEvent.tickMove 1 0 1000,
          PEvent.eatFood smallPelletC7]).segments.length ∧
      (runPlayer pC7 [PEvent.tickMove 1 0 1000,
          PEvent.eatFood smallPelletC7]).segments.length
        ≤ (runPlayer pC7 [PEvent.tickMove 1 0 1000,
          PEvent.eatFood smallPelletC7]).length) ∧
    ((∀ e ∈ [PEvent.tickMove 1 0 1000, PEvent.eatFood smallPelletC7], smallEat e) →
      (runPlayer pC7 [PEvent.tickMove 1 0 1000,
          PEvent.eatFood smallPelletC7]).segments.length
        = min (runPlayer pC7 [PEvent.tickMove 1 0 1000,
            PEvent.eatFood smallPelletC7]).length
            (runPushes pC7 3 [PEvent.tickMove 1 0 1000,
              PEvent.eatFood smallPelletC7]))) :=
  ⟨⟨by decide, by decide, by decide⟩,
   segments_invariant_amended pC7 3
     [PEvent.tickMove 1 0 1000, PEvent.eatFood smallPelletC7]
     (by decide) (by decide) (by decide)⟩

def largeA : FoodItem :=
  { id := 5, x := 17400, y := 9000, type := .large, color := 0x9C27B0
    size := 40, score := 25, growthAmount := 2 }

def largeB : FoodItem :=
  { id := 6, x := 17400, y := 9000, type := .large, color := 0x9C27B0
    size := 40, score := 25, growthAmount := 2 }

def evC7 : List PEvent :=
  [PEvent.tickMove 1 0 1000, PEvent.eatFood largeA, PEvent.eatFood largeB,
   PEvent.tickMove 1 0 1000]

/-- C7 counterexample: after one in-arena tick, two validated large
    eats (both pellets within eating range of the head), and one
    boundary-blocked tick, the avatar ends a completed tick with
    `segments.length = 6` but `length = 7` and 8 pushed head positions,
    so `segments.length ≠ min length pushedHeadCount`: the chain lags
    the length even after the post-collision resync. -/
theorem segments_min_pushed_cex :
    (runPlayer pC7 evC7).length = 7 ∧
    runPushes pC7 3 evC7 = 8 ∧
    (runPlayer pC7 evC7).segments.length = 6 ∧
    distSq (runPlayer pC7 [PEvent.tickMove 1 0 1000]).x
        (runPlayer pC7 [PEvent.tickMove 1 0 1000]).y largeA.x largeA.y
      ≤ eatDistSq ∧
    distSq (runPlayer pC7 [PEvent.tickMove 1 0 1000, PEvent.eatFood largeA]).x
        (runPlayer pC7 [PEvent.tickMove 1 0 1000, PEvent.eatFood largeA]).y
        largeB.x largeB.y ≤ eatDistSq ∧
    ¬ inArena (integratedPos (runPlayer pC7 [PEvent.tickMove 1 0 1000,
          PEvent.eatFood largeA, PEvent.eatFood largeB]) 1 0 1000).1
        (integratedPos (runPlayer pC7 [PEvent.tickMove 1 0 1000,
          PEvent.eatFood largeA, PEvent.eatFood largeB]) 1 0 1000).2 ∧
    ¬ ((runPlayer pC7 evC7).segments.length
        = min (runPlayer pC7 evC7).length (runPushes pC7 3 evC7)) := by
  norm_num [evC7, runPlayer, runPushes, stepPlayer, eventPushes, tickPlayer,
    updatePlayer, updatePlayerSegments, eatApply, inArena, integratedPos,
    speedOf, distSq, eatDistSq, FOOD_RADIUS, SNAKE_EAT_RADIUS, pC7, largeA,
    largeB, BASE_SPEED, BOOST_MULTIPLIER, ARENA_CENTER_X, ARENA_CENTER_Y,
    ARENA_RADIUS, WORLD_WIDTH, WORLD_HEIGHT, List.take]

/-! ### C9: join placement (`addPlayer`) -/

/-- C9: every join places the avatar within the inner 30 percent of the
    arena radius, stores the drawn random heading, starts at the fixed
    initial length with score zero, and seeds the chain with
    `SNAKE_INITIAL_LENGTH` collinear points, spaced one grid unit
    apart, trailing opposite the spawn heading.  The `Math.random()`
    draws are universally quantified oracles. -/
theorem addPlayer_spec (playerId : ℕ) (c1 s1 rad ang2 c2 s2 : ℚ)
    (h0 : 0 ≤ rad) (h1 : rad ≤ 1) (hu1 : c1 ^ 2 + s1 ^ 2 = 1)
    (hu2 : c2 ^ 2 + s2 ^ 2 = 1) :
    ∀ p : Player, p = addPlayer playerId c1 s1 rad ang2 c2 s2 →
      Real.sqrt ((distSq p.x p.y ARENA_CENTER_X ARENA_CENTER_Y : ℚ) : ℝ)
          ≤ ((3 / 10 * ARENA_RADIUS : ℚ) : ℝ) ∧
      p.angle = ang2 ∧
      p.length = SNAKE_INITIAL_LENGTH ∧
      p.score = 0 ∧
      p.segments =
        [(p.x, p.y),
         (p.x - GRID_SIZE * c2, p.y - GRID_SIZE * s2),
         (p.x - 2 * (GRID_SIZE * c2), p.y - 2 * (GRID_SIZE * s2))] ∧
      (GRID_SIZE * c2) ^ 2 + (GRID_SIZE * s2) ^ 2 = GRID_SIZE ^ 2 := by
  intro p hp
  subst hp
  refine ⟨?_, rfl, rfl, rfl, ?_, ?_⟩
  · rw [sqrt_cast_le_iff _ _ (distSq_nonneg _ _ _ _)
      (by norm_num [ARENA_RADIUS, WORLD_WIDTH, WORLD_HEIGHT])]
    show distSq (ARENA_CENTER_X + c1 * (rad * (ARENA_RADIUS * (3 / 10))))
        (ARENA_CENTER_Y + s1 * (rad * (ARENA_RADIUS * (3 / 10))))
        ARENA_CENTER_X ARENA_CENTER_Y ≤ (3 / 10 * ARENA_RADIUS) ^ 2
    rw [distSq, ARENA_RADIUS, WORLD_WIDTH, WORLD_HEIGHT]
    norm_num
    nlinarith [mul_nonneg h0 (sub_nonneg.mpr h1), sq_nonneg rad,
      sq_nonneg (c1 * rad), sq_nonneg (s1 * rad)]
  · have hx : (addPlayer playerId c1 s1 rad ang2 c2 s2).x
        = ARENA_CENTER_X + c1 * (rad * (ARENA_RADIUS * (3 / 10))) := rfl
    have hy : (addPlayer playerId c1 s1 rad ang2 c2 s2).y
        = ARENA_CENTER_Y + s1 * (rad * (ARENA_RADIUS * (3 / 10))) := rfl
    have hseg : (addPlayer playerId c1 s1 rad ang2 c2 s2).segments =
        [(ARENA_CENTER_X + c1 * (rad * (ARENA_RADIUS * (3 / 10)))
            - ((0 : ℕ) : ℚ) * GRID_SIZE * c2,
          ARENA_CENTER_Y + s1 * (rad * (ARENA_RADIUS * (3 / 10)))
            - ((0 : ℕ) : ℚ) * GRID_SIZE * s2),
         (ARENA_CENTER_X + c1 * (rad * (ARENA_RADIUS * (3 / 10)))
            - ((1 : ℕ) : ℚ) * GRID_SIZE * c2,
          ARENA_CENTER_Y + s1 * (rad * (ARENA_RADIUS * (3 / 10)))
            - ((1 : ℕ) : ℚ) * GRID_SIZE * s2),
         (ARENA_CENTER_X + c1 * (rad * (ARENA_RADIUS * (3 / 10)))
            - ((2 : ℕ) : ℚ) * GRID_SIZE * c2,
          ARENA_CENTER_Y + s1 * (rad * (ARENA_RADIUS * (3 / 10)))
            - ((2 : ℕ) : ℚ) * GRID_SIZE * s2)] := rfl
    rw [hseg, hx, hy]
    simp only [List.cons.injEq, Prod.mk.injEq, and_true]
    push_cast
    refine ⟨⟨by ring, by ring⟩, ⟨by ring, by ring⟩, by ring, by ring⟩
  · nlinarith [hu2]

theorem addPlayer_spec_witness :
    ((0 : ℚ) ≤ 1 ∧ (1 : ℚ) ≤ 1 ∧ (1 : ℚ) ^ 2 + (0 : ℚ) ^ 2 = 1 ∧
      (0 : ℚ) ^ 2 + (1 : ℚ) ^ 2 = 1) ∧
    (∀ p : Player, p = addPlayer 9 1 0 1 0 0 1 →
      Real.sqrt ((distSq p.x p.y ARENA_CENTER_X ARENA_CENTER_Y : ℚ) : ℝ)
          ≤ ((3 / 10 * ARENA_RADIUS : ℚ) : ℝ) ∧
      p.angle = 0 ∧
      p.length = SNAKE_INITIAL_LENGTH ∧
      p.score = 0 ∧
      p.segments =
        [(p.x, p.y),
         (p.x - GRID_SIZE * 0, p.y - GRID_SIZE * 1),
         (p.x - 2 * (GRID_SIZE * 0), p.y - 2 * (GRID_SIZE * 1))] ∧
      (GRID_SIZE * 0) ^ 2 + (GRID_SIZE * 1) ^ 2 = GRID_SIZE ^ 2) :=
  ⟨⟨by norm_num, by norm_num, by norm_num, by norm_num⟩,
   addPlayer_spec 9 1 0 1 0 0 1 (by norm_num) (by norm_num) (by norm_num)
     (by norm_num)⟩

/-! ### C10: rejection atomicity -/

theorem validateEatAttempt_fail_state (m : FoodManager) (pv : PlayerV)
    (foodId : ℕ) (h : (m.validateEatAttempt pv foodId).1.success = false) :
    (m.validateEatAttempt pv foodId).2 = m := by
  rcases hm : m.getFood foodId with _ | food
  · simp [FoodManager.validateEatAttempt, hm]
  rcases hs : pv.segments with _ | ⟨hd, tl⟩
  · simp [FoodManager.validateEatAttempt, hm, hs]
  by_cases hdist : distSq hd.1 hd.2 food.x food.y ≤ eatDistSq
  · exfalso
    simp [FoodManager.validateEatAttempt, hm, hs, if_pos hdist] at h
  · simp [FoodManager.validateEatAttempt, hm, hs, if_neg hdist]

/-- C10: a rejected eat claim (unknown claimant, absent pellet id,
    empty segment chain, or claimant too far) leaves the entire world
    state unchanged — no pellet removed, no replacement spawned, pool
    count unchanged, claimant score and length unchanged. -/
theorem handleEatAttempt_reject_atomic (w : GameWorld) (playerId foodId : ℕ)
    (h : EatRejected w playerId foodId = true) :
    w.handleEatAttempt playerId foodId = w := by
  unfold EatRejected at h
  unfold GameWorld.handleEatAttempt
  rcases hf : w.players.find? (fun q => q.id == playerId) with _ | player
  · rw [hf]
  · rw [hf] at h
    simp only [Bool.not_eq_true'] at h
    have h2 := validateEatAttempt_fail_state w.foodManager (playerToPV player)
      foodId h
    rw [hf]
    simp [h, h2]

def mgrEmpty : FoodManager :=
  { food := [], maxFood := 2500, arenaCenterX := 9000, arenaCenterY := 9000
    arenaRadius := 8500, gridSize := 20, nextId := 0, draws := drawsW }

def wW10 : GameWorld := { players := [pW4], foodManager := mgrEmpty }

theorem handleEatAttempt_reject_atomic_witness :
    EatRejected wW10 1 99 = true ∧ wW10.handleEatAttempt 1 99 = wW10 :=
  ⟨by decide, handleEatAttempt_reject_atomic wW10 1 99 (by decide)⟩

/-! ### C8: client length reconciliation
    (src/client/src/Snake.ts lines 262-527,
    src/unnamed/part_004 lines 549-588) -/

/-- The client `Snake` (the slither-style class): the fields the
    reconciliation logic touches; graphics handles dropped. -/
structure ClientSnake where
  segments : List (ℚ × ℚ)
  angle : ℚ
  targetAngle : ℚ
  isBoosting : Bool
  boostTime : ℚ
deriving DecidableEq, Repr

/-- `Snake.grow` (client lines 423-451): appends exactly one segment
    behind the tail.  The appended position is computed with a square
    root (`tail + (dx, dy) * GRID_SIZE / distance`), irrational in
    general; only the appended count matters to the claims, so the
    appended point is supplied by the oracle `pt`. -/
def ClientSnake.grow (s : ClientSnake) (pt : ℚ × ℚ) : ClientSnake :=
  { s with segments := s.segments ++ [pt] }

/-- `Snake.shrink` (client lines 453-464): return early at or below
    `MIN_SNAKE_LENGTH`, otherwise pop the tail segment. -/
def ClientSnake.shrink (s : ClientSnake) : ClientSnake :=
  if s.segments.length ≤ MIN_SNAKE_LENGTH then s
  else { s with segments := s.segments.dropLast }

/-- The `for` loop of grow calls in `handleServerLengthChange`. -/
def growN (pts : ℕ → ℚ × ℚ) : ℕ → ClientSnake → ClientSnake
  | 0, s => s
  | n + 1, s => growN pts n (s.grow (pts n))

/-- The `for` loop of shrink calls in `handleServerLengthChange`. -/
def shrinkN : ℕ → ClientSnake → ClientSnake
  | 0, s => s
  | n + 1, s => shrinkN n s.shrink

/-- The `GameScene` state consumed by `handleServerLengthChange`. -/
structure GameScene where
  snake : Option ClientSnake
  useLocalPrediction : Bool
  lastKnownServerLength : ℕ
deriving DecidableEq, Repr

/-- `GameScene.handleServerLengthChange` (src/unnamed/part_004 lines
    549-588): bail out without a snake or without local prediction;
    on the first snapshot (`lastKnownServerLength === 0`) only record
    the baseline; otherwise grow or shrink locally by the delta against
    the last known server length and record the new baseline. -/
def GameScene.handleServerLengthChange (g : GameScene) (serverLength : ℕ)
    (pts : ℕ → ℚ × ℚ) : GameScene :=
  match g.snake with
  | none => g
  | some snake =>
    if !g.useLocalPrediction then g
    else if g.lastKnownServerLength == 0 then
      { g with lastKnownServerLength := serverLength }
    else
      let diff : ℤ := (serverLength : ℤ) - (g.lastKnownServerLength : ℤ)
      if 0 < diff then
        { g with snake := some (growN pts diff.toNat snake)
                 lastKnownServerLength := serverLength }
      else if diff < 0 then
        { g with snake := some (shrinkN diff.natAbs snake)
                 lastKnownServerLength := serverLength }
      else g

theorem growN_length (pts : ℕ → ℚ × ℚ) :
    ∀ (n : ℕ) (s : ClientSnake),
      (growN pts n s).segments.length = s.segments.length + n := by
  intro n
  induction n with
  | zero => intro s; rfl
  | succ n ih =>
    intro s
    show (growN pts n (s.grow (pts n))).segments.length = _
    rw [ih (s.grow (pts n))]
    simp only [ClientSnake.grow, List.length_append, List.length_cons,
      List.length_nil]
    omega

theorem shrinkN_length :
    ∀ (n : ℕ) (s : ClientSnake),
      (shrinkN n s).segments.length
        = max (s.segments.length - n)
            (min s.segments.length MIN_SNAKE_LENGTH) := by
  intro n
  induction n with
  | zero =>
    intro s
    simp only [shrinkN, MIN_SNAKE_LENGTH]
    omega
  | succ n ih =>
    intro s
    have hstep : s.shrink.segments.length
        = if s.segments.length ≤ 2 then s.segments.length
          else s.segments.length - 1 := by
      unfold ClientSnake.shrink
      simp only [MIN_SNAKE_LENGTH]
      split_ifs with h
      · rfl
      · simp [List.length_dropLast]
    show (shrinkN n s.shrink).segments.length = _
    rw [ih s.shrink, hstep]
    simp only [MIN_SNAKE_LENGTH]
    split_ifs with h <;> omega

/-- C8 amended: with the baseline initialized, a snapshot carrying
    server length `L` makes the client grow by exactly
    `L - lastKnown` when the delta is positive, shrink one segment per
    unit of a negative delta with each unit skipped at or below
    `MIN_SNAKE_LENGTH` (so never below 2, and by fewer than the delta
    when the local chain is too short), and change nothing on a zero
    delta; the stored baseline becomes `L`. -/
theorem handleServerLengthChange_amended (g : GameScene) (serverLength : ℕ)
    (pts : ℕ → ℚ × ℚ) (snake : ClientSnake)
    (hs : g.snake = some snake) (hp : g.useLocalPrediction = true)
    (h0 : g.lastKnownServerLength ≠ 0) :
    ∃ snake2, (g.handleServerLengthChange serverLength pts).snake = some snake2 ∧
      snake2.segments.length =
        (if g.lastKnownServerLength < serverLength then
          snake.segments.length + (serverLength - g.lastKnownServerLength)
        else if serverLength < g.lastKnownServerLength then
          max (snake.segments.length - (g.lastKnownServerLength - serverLength))
            (min snake.segments.length MIN_SNAKE_LENGTH)
        else snake.segments.length) ∧
      (g.handleServerLengthChange serverLength pts).lastKnownServerLength
        = serverLength := by
  unfold GameScene.handleServerLengthChange
  rw [hs]
  simp only [hp, Bool.not_true, Bool.false_eq_true, if_false,
    beq_iff_eq, h0, if_false]
  rcases lt_trichotomy g.lastKnownServerLength serverLength with hlt | heq | hgt
  · have hd : (0 : ℤ) < (serverLength : ℤ) - (g.lastKnownServerLength : ℤ) := by
      omega
    rw [if_pos hd]
    refine ⟨_, rfl, ?_, rfl⟩
    rw [growN_length, if_pos hlt]
    omega
  · have hd1 : ¬ (0 : ℤ) < (serverLength : ℤ) - (g.lastKnownServerLength : ℤ) := by
      omega
    have hd2 : ¬ ((serverLength : ℤ) - (g.lastKnownServerLength : ℤ) < 0) := by
      omega
    rw [if_neg hd1, if_neg hd2]
    refine ⟨snake, hs, ?_, by omega⟩
    rw [if_neg (by omega), if_neg (by omega)]
  · have hd1 : ¬ (0 : ℤ) < (serverLength : ℤ) - (g.lastKnownServerLength : ℤ) := by
      omega
    have hd2 : (serverLength : ℤ) - (g.lastKnownServerLength : ℤ) < 0 := by
      omega
    rw [if_neg hd1, if_pos hd2]
    refine ⟨_, rfl, ?_, rfl⟩
    rw [shrinkN_length, if_neg (by omega), if_pos hgt]
    congr 1
    omega

def csW : ClientSnake :=
  { segments := [(0, 0), (20, 0), (40, 0)], angle := 0, targetAngle := 0
    isBoosting := false, boostTime := 0 }

def gsW : GameScene :=
  { snake := some csW, useLocalPrediction := true, lastKnownServerLength := 5 }

def ptsW : ℕ → ℚ × ℚ := fun _ => (0, 0)

theorem handleServerLengthChange_amended_witness :
    (gsW.snake = some csW ∧ gsW.useLocalPrediction = true ∧
      gsW.lastKnownServerLength ≠ 0) ∧
    ∃ snake2, (gsW.handleServerLengthChange 7 ptsW).snake = some snake2 ∧
      snake2.segments.length =
        (if gsW.lastKnownServerLength < 7 then
          csW.segments.length + (7 - gsW.lastKnownServerLength)
        else if 7 < gsW.lastKnownServerLength then
          max (csW.segments.length - (gsW.lastKnownServerLength - 7))
            (min csW.segments.length MIN_SNAKE_LENGTH)
        else csW.segments.length) ∧
      (gsW.handleServerLengthChange 7 ptsW).lastKnownServerLength = 7 :=
  ⟨⟨rfl, rfl, by decide⟩,
   handleServerLengthChange_amended gsW 7 ptsW csW rfl rfl (by decide)⟩

/-- Local length as read back from the scene. -/
def clientLength (g : GameScene) : ℕ :=
  match g.snake with
  | some s => s.segments.length
  | none => 0

/-- C8 counterexample: a local snake of 3 segments with last known
    server length 5 receives a snapshot with server length 3; the claim
    demands a shrink by exactly 2 (to length 1), but `shrink` skips
    once the chain is at `MIN_SNAKE_LENGTH = 2`, so the code shrinks by
    only 1 and ends at length 2. -/
theorem shrink_clamped_cex :
    clientLength gsW = 3 ∧
    gsW.lastKnownServerLength = 5 ∧
    clientLength (gsW.handleServerLengthChange 3 ptsW) = 2 ∧
    ¬ (clientLength (gsW.handleServerLengthChange 3 ptsW)
        = clientLength gsW - (gsW.lastKnownServerLength - 3)) := by
  refine ⟨rfl, rfl, ?_, ?_⟩ <;>
    simp [clientLength, GameScene.handleServerLengthChange, gsW, csW, ptsW,
      shrinkN, ClientSnake.shrink, MIN_SNAKE_LENGTH, List.dropLast]

end Snake402
